import Mathlib

/-!
Kanban task backend: validation, default filling and the recursive subtask fetch.

A shallow embedding of the Go backend (`models`, `services`, `repository`,
`handlers`) together with the properties of its specification.

* Go strings are modelled by `String`; the byte-indexed helpers of package
  `time` work on `String.data`.  Every byte they accept is an ASCII digit or
  an ASCII separator, so reading characters instead of bytes accepts the same
  strings.
* A Go slice is `Option (List _)`: `none` is the nil slice, `some []` the
  empty non-nil slice.
* The PostgreSQL table `tasks` is a list of rows; a nullable column is an
  `Option`.
* A call that never returns (it waits for a pool connection that is never
  given back) is the result `none`.
-/

namespace Kanban

/-! ## models/task.go -/

abbrev Priority := String
abbrev Status := String

def PriorityLow : Priority := "low"
def PriorityMedium : Priority := "medium"
def PriorityHigh : Priority := "high"

def StatusBacklog : Status := "backlog"
def StatusActive : Status := "active"
def StatusFinished : Status := "finished"

/-- The struct `models.Task`.  `DueDate` and `DueTime` are `*string`
(`none` is the nil pointer); `SubTasks` is a slice (`none` is nil). -/
structure Task where
  ID : String
  Title : String
  Description : String
  Priority : Priority
  Status : Status
  StartDate : String
  DueDate : Option String
  DueTime : Option String
  SubTasks : Option (List Task)

/-- Causes reported by the database driver; the repository only tests them
against nil and wraps them with `%v`. -/
inductive PgError where
  | connection
  | noRows
  | scanNull
  | uniqueViolation
  | foreignKeyViolation
  deriving DecidableEq, Repr

/-- A Go `error` built by `fmt.Errorf`: the fixed text, and the wrapped driver
error when the format ends in `: %v`. -/
structure Error where
  msg : String
  cause : Option PgError
  deriving DecidableEq, Repr

/-- The value of `fmt.Errorf(msg)`. -/
def Errorf (msg : String) : Error := ⟨msg, none⟩

/-- The value of `fmt.Errorf(msg + ": %v", err)`. -/
def ErrorfV (msg : String) (err : PgError) : Error := ⟨msg, some err⟩

/-! ## Package `time` of the Go standard library

`validateTask` calls `time.Parse` with the layouts `"2006-01-02"` and
`"15:04"`.  The definitions below follow `time/format.go` for exactly those
two layouts: `isDigit`, `getnum`, `leadingInt`, `atoi`, `skip`, `isLeap`,
`daysIn` and the chunk loop of `parse`. -/

/-- ASCII digit test on one byte. -/
def digitByte (c : Char) : Bool := decide (48 ≤ c.toNat) && decide (c.toNat ≤ 57)

/-- Go `isDigit(s, i)`: index `i` is in range and holds an ASCII digit. -/
def isDigit (s : List Char) (i : Nat) : Bool :=
  match s.get? i with
  | some c => digitByte c
  | none => false

/-- The numeric value `int(c - '0')` of a digit byte. -/
def digitVal (c : Char) : Nat := c.toNat - 48

/-- Go `getnum(s, fixed)`: a one- or two-digit number; with `fixed` exactly
two digits are required.  `none` is `errBad`. -/
def getnum (s : List Char) (fixed : Bool) : Option (Int × List Char) :=
  if !isDigit s 0 then none
  else if !isDigit s 1 then
    if fixed then none
    else some ((digitVal (s.headD '0') : Int), s.drop 1)
  else
    some ((digitVal (s.headD '0') * 10 + digitVal ((s.drop 1).headD '0') : Nat), s.drop 2)

/-- Go `leadingInt(s)`: consumes leading digits into an unsigned number with
its two overflow guards; returns the number and the unread rest. -/
def leadingInt : List Char → Nat → Option (Nat × List Char)
  | [], x => some (x, [])
  | c :: rest, x =>
    if !digitByte c then some (x, c :: rest)
    else if x > 2 ^ 63 / 10 then none
    else
      let x1 := x * 10 + digitVal c
      if x1 > 2 ^ 63 then none else leadingInt rest x1

/-- Go `atoi(s)`: optional sign, then digits up to the end of `s`. -/
def atoi (s : List Char) : Option Int :=
  let neg := decide (s.head? = some '-')
  let s1 := if s.head? = some '-' ∨ s.head? = some '+' then s.drop 1 else s
  match leadingInt s1 0 with
  | none => none
  | some (q, rem) =>
    if rem ≠ [] then none
    else some (if neg then -(q : Int) else (q : Int))

/-- Go `skip(value, prefix)` for a prefix without spaces (neither layout
contains one): the value must start with the prefix. -/
def skip : List Char → List Char → Option (List Char)
  | value, [] => some value
  | [], _ :: _ => none
  | v :: value, p :: pre => if v ≠ p then none else skip value pre

/-- Go `isLeap(year)`. -/
def isLeap (year : Int) : Bool :=
  year % 4 == 0 && (year % 100 != 0 || year % 400 == 0)

/-- Go `daysBefore`: the days of a non-leap year before the end of month `m`. -/
def daysBefore : List Int :=
  [0, 31, 31 + 28, 31 + 28 + 31, 31 + 28 + 31 + 30, 31 + 28 + 31 + 30 + 31,
   31 + 28 + 31 + 30 + 31 + 30, 31 + 28 + 31 + 30 + 31 + 30 + 31,
   31 + 28 + 31 + 30 + 31 + 30 + 31 + 31, 31 + 28 + 31 + 30 + 31 + 30 + 31 + 31 + 30,
   31 + 28 + 31 + 30 + 31 + 30 + 31 + 31 + 30 + 31,
   31 + 28 + 31 + 30 + 31 + 30 + 31 + 31 + 30 + 31 + 30,
   31 + 28 + 31 + 30 + 31 + 30 + 31 + 31 + 30 + 31 + 30 + 31]

/-- Go `daysIn(m, year)`, for a month `1 ≤ m ≤ 12`. -/
def daysIn (m : Int) (year : Int) : Int :=
  if m = 2 ∧ isLeap year = true then 29
  else daysBefore.getD m.toNat 0 - daysBefore.getD (m.toNat - 1) 0

/-- The layout elements that occur in the two layouts. -/
inductive Std where
  | stdLongYear
  | stdZeroMonth
  | stdZeroDay
  | stdHour
  | stdZeroMinute
  deriving DecidableEq, Repr

/-- The fields `parse` accumulates; `month` and `day` start at `-1`. -/
structure Parsed where
  year : Int
  month : Int
  day : Int
  hour : Int
  min : Int
  deriving DecidableEq, Repr

/-- One iteration of the loop of `parse` for the element `std`: reads the
element from `value`; `none` is a parse error (bad syntax or out of range). -/
def parseStd (std : Std) (value : List Char) (f : Parsed) : Option (Parsed × List Char) :=
  match std with
  | .stdLongYear =>
    if value.length < 4 || !isDigit value 0 then none
    else
      match atoi (value.take 4) with
      | none => none
      | some y => some ({ f with year := y }, value.drop 4)
  | .stdZeroMonth =>
    match getnum value true with
    | none => none
    | some (m, rest) => if m ≤ 0 ∨ 12 < m then none else some ({ f with month := m }, rest)
  | .stdZeroDay =>
    match getnum value true with
    | none => none
    | some (d, rest) => some ({ f with day := d }, rest)
  | .stdHour =>
    match getnum value false with
    | none => none
    | some (h, rest) => if h < 0 ∨ 24 ≤ h then none else some ({ f with hour := h }, rest)
  | .stdZeroMinute =>
    match getnum value true with
    | none => none
    | some (m, rest) => if m < 0 ∨ 60 ≤ m then none else some ({ f with min := m }, rest)

/-- The loop of `parse` over the chunks `(prefix, std)` of a layout, then the
check that no text is left over. -/
def parseChunks : List (List Char × Std) → List Char → Parsed → Option Parsed
  | [], value, f => if value ≠ [] then none else some f
  | (pre, std) :: layout, value, f =>
    match skip value pre with
    | none => none
    | some v1 =>
      match parseStd std v1 f with
      | none => none
      | some (f1, v2) => parseChunks layout v2 f1

/-- The end of `parse`: defaults for an unset month and day, then the
day-of-month validation.  Returns whether parsing succeeds. -/
def parseFinish (f : Parsed) : Bool :=
  let month := if f.month < 0 then 1 else f.month
  let day := if f.day < 0 then 1 else f.day
  !(decide (day < 1) || decide (day > daysIn month f.year))

/-- What `nextStdChunk` yields for layout `"2006-01-02"`. -/
def layoutDate : List (List Char × Std) :=
  [([], .stdLongYear), (['-'], .stdZeroMonth), (['-'], .stdZeroDay)]

/-- What `nextStdChunk` yields for layout `"15:04"`. -/
def layoutClock : List (List Char × Std) :=
  [([], .stdHour), ([':'], .stdZeroMinute)]

/-- Whether `time.Parse(layout, value)` returns a nil error. -/
def timeParseOk (layout : List (List Char × Std)) (value : String) : Bool :=
  match parseChunks layout value.data ⟨0, -1, -1, 0, 0⟩ with
  | none => false
  | some f => parseFinish f

/-! ## services/task_service.go: validateTask -/

namespace TaskService

/-- The method `validateTask`; `none` is the nil error.  A nil `*string` is
`none`, and `getD` reads the pointer where the code has checked it. -/
def validateTask (task : Task) : Option Error :=
  if task.Title = "" then some (Errorf "task title is required")
  else if task.Priority ≠ "" ∧ task.Priority ≠ PriorityLow ∧
      task.Priority ≠ PriorityMedium ∧ task.Priority ≠ PriorityHigh then
    some (Errorf "invalid priority value")
  else if task.Status ≠ "" ∧ task.Status ≠ StatusBacklog ∧
      task.Status ≠ StatusActive ∧ task.Status ≠ StatusFinished then
    some (Errorf "invalid status value")
  else if task.StartDate ≠ "" ∧ timeParseOk layoutDate task.StartDate = false then
    some (Errorf "invalid start date format")
  else if task.DueDate ≠ none ∧ timeParseOk layoutDate (task.DueDate.getD "") = false then
    some (Errorf "invalid due date format")
  else if task.DueTime ≠ none ∧ timeParseOk layoutClock (task.DueTime.getD "") = false then
    some (Errorf "invalid due time format")
  else none

end TaskService

/-! ## The formats as the specification words them -/

/-- Days of month `m` of year `y` in the Gregorian calendar; `0` for a month
outside `1..12`. -/
def calendarDays (y m : Nat) : Nat :=
  if m = 1 ∨ m = 3 ∨ m = 5 ∨ m = 7 ∨ m = 8 ∨ m = 10 ∨ m = 12 then 31
  else if m = 4 ∨ m = 6 ∨ m = 9 ∨ m = 11 then 30
  else if m = 2 then
    (if y % 400 = 0 ∨ (y % 4 = 0 ∧ y % 100 ≠ 0) then 29 else 28)
  else 0

/-- The form YYYY-MM-DD: four digits, a hyphen, two digits, a hyphen, two
digits, and the three numbers name a day of the calendar. -/
def isDateForm (s : String) : Bool :=
  match s.data with
  | [y1, y2, y3, y4, h1, m1, m2, h2, d1, d2] =>
    digitByte y1 && digitByte y2 && digitByte y3 && digitByte y4 &&
    decide (h1 = '-') &&
    digitByte m1 && digitByte m2 &&
    decide (h2 = '-') &&
    digitByte d1 && digitByte d2 &&
    decide (1 ≤ digitVal m1 * 10 + digitVal m2) &&
    decide (digitVal m1 * 10 + digitVal m2 ≤ 12) &&
    decide (1 ≤ digitVal d1 * 10 + digitVal d2) &&
    decide (digitVal d1 * 10 + digitVal d2 ≤
      calendarDays (digitVal y1 * 1000 + digitVal y2 * 100 + digitVal y3 * 10 + digitVal y4)
        (digitVal m1 * 10 + digitVal m2))
  | _ => false

/-- The form HH:MM with a two-digit hour 00-23 and a two-digit minute 00-59. -/
def isClockForm (s : String) : Bool :=
  match s.data with
  | [a1, a2, c, b1, b2] =>
    digitByte a1 && digitByte a2 && decide (c = ':') && digitByte b1 && digitByte b2 &&
    decide (digitVal a1 * 10 + digitVal a2 ≤ 23) &&
    decide (digitVal b1 * 10 + digitVal b2 ≤ 59)
  | _ => false

/-- The form H:MM with a single-digit hour 0-9 and a two-digit minute 00-59. -/
def isShortClockForm (s : String) : Bool :=
  match s.data with
  | [a1, c, b1, b2] =>
    digitByte a1 && decide (c = ':') && digitByte b1 && digitByte b2 &&
    decide (digitVal b1 * 10 + digitVal b2 ≤ 59)
  | _ => false

/-! ## The clock -/

/-- A reading of `time.Now()`, reduced to what the service observes: the
nanoseconds since the epoch and the local calendar date. -/
structure Time where
  unixNano : Int
  year : Nat
  month : Nat
  day : Nat
  deriving DecidableEq, Repr

/-- Go `appendInt(b, x, width)` for a non-negative `x`: the decimal digits,
zero-padded on the left to `width`. -/
def appendInt (x : Nat) (width : Nat) : String :=
  String.mk (List.replicate (width - (toString x).length) '0') ++ toString x

/-- The value of `t.Format("2006-01-02")`. -/
def Time.Format (t : Time) : String :=
  appendInt t.year 4 ++ "-" ++ appendInt t.month 2 ++ "-" ++ appendInt t.day 2

/-- The value of `fmt.Sprintf("%d", t.UnixNano())`. -/
def Time.idString (t : Time) : String := toString t.unixNano

/-! ## The table `tasks` (config/db.go) behind `config.DB` -/

/-- One row of table `tasks`.  The columns `description`, `due_date`,
`due_time` and `parent_id` are nullable. -/
structure Row where
  id : String
  title : String
  description : Option String
  priority : String
  status : String
  start_date : String
  due_date : Option String
  due_time : Option String
  parent_id : Option String
  deriving DecidableEq, Repr

/-- The database: the rows of the table, in the order a `SELECT` yields them,
and whether the server answers (`up = false`: every `Query` and `Exec`
returns an error).  The pool `config.DB` has a fixed number of connections,
at least one; the fetch functions below take the number that is free when
they start as their first argument, and a single `Exec` or `QueryRow` is
always served. -/
structure DB where
  rows : List Row
  up : Bool
  deriving DecidableEq, Repr

/-- The primary key: no two rows share an `id`. -/
def KeysUnique (rows : List Row) : Prop := (rows.map (fun r => r.id)).Nodup

/-- The foreign key: every non-NULL `parent_id` is the `id` of a row. -/
def RefsValid (rows : List Row) : Prop :=
  ∀ r ∈ rows, ∀ p, r.parent_id = some p → ∃ q ∈ rows, q.id = p

/-- The query `SELECT ... WHERE parent_id IS NULL`. -/
def DB.queryTop (db : DB) : Except PgError (List Row) :=
  if db.up then .ok (db.rows.filter (fun r => r.parent_id = none)) else .error .connection

/-- The query `SELECT ... WHERE parent_id = $1`. -/
def DB.queryChildren (db : DB) (parentID : String) : Except PgError (List Row) :=
  if db.up then .ok (db.rows.filter (fun r => r.parent_id = some parentID))
  else .error .connection

/-- The call `QueryRow` of `SELECT ... WHERE id = $1`: the first matching row. -/
def DB.queryRow (db : DB) (id : String) : Except PgError Row :=
  if db.up then
    match db.rows.find? (fun r => r.id = id) with
    | some r => .ok r
    | none => .error .noRows
  else .error .connection

/-- The statement `INSERT INTO tasks`: rejected when the `id` exists (primary key) or when a
non-NULL `parent_id` names no row of the table including the new one
(foreign key). -/
def DB.insert (db : DB) (row : Row) : Except PgError DB :=
  if db.up = false then .error .connection
  else if db.rows.any (fun r => r.id = row.id) then .error .uniqueViolation
  else if row.parent_id ≠ none ∧
      ¬ (db.rows ++ [row]).any (fun r => some r.id = row.parent_id) then
    .error .foreignKeyViolation
  else .ok { db with rows := db.rows ++ [row] }

/-- The statement `UPDATE tasks SET ... WHERE id = $8`: applies `set` to the matching rows;
the second component is `RowsAffected`. -/
def DB.update (db : DB) (id : String) (set : Row → Row) : Except PgError (DB × Nat) :=
  if db.up = false then .error .connection
  else .ok ({ db with rows := db.rows.map (fun r => if r.id = id then set r else r) },
    (db.rows.filter (fun r => r.id = id)).length)

/-- The ids removed by `ON DELETE CASCADE`: `dead` closed under "a row whose
`parent_id` is dead is dead", iterated `n` times. -/
def cascade : Nat → List Row → List String → List String
  | 0, _, dead => dead
  | n + 1, rows, dead =>
    cascade n rows
      (dead ++ (rows.filter (fun r => r.id ∉ dead ∧
        ∃ p ∈ dead, r.parent_id = some p)).map (fun r => r.id))

/-- The statement `DELETE FROM tasks WHERE id = $1`: removes the matching rows and, by the
cascade, their descendants; the second component is `RowsAffected`, the
number of rows the statement itself matched. -/
def DB.delete (db : DB) (id : String) : Except PgError (DB × Nat) :=
  if db.up = false then .error .connection
  else
    let hit := db.rows.filter (fun r => r.id = id)
    let dead := cascade db.rows.length db.rows (hit.map (fun r => r.id))
    .ok ({ db with rows := db.rows.filter (fun r => r.id ∉ dead) }, hit.length)

/-! ## repository/task_repository.go -/

/-- The call `rows.Scan(&task.ID, ..., &dueDate, &dueTime)` followed by the two nil
checks: a NULL `description` cannot be scanned into a Go string; the two
nullable date columns go to pointers.  `SubTasks` is still nil. -/
def scan (r : Row) : Except PgError Task :=
  match r.description with
  | none => .error .scanNull
  | some d => .ok ⟨r.id, r.title, d, r.priority, r.status, r.start_date, r.due_date, r.due_time, none⟩

/-- Go `append(s, t)` on a possibly nil slice. -/
def appendTask (s : Option (List Task)) (t : Task) : Option (List Task) :=
  some (s.getD [] ++ [t])

/-- The loop `for rows.Next() { ... }` shared by `GetTasks` and
`getSubtasksForTask`: each row is appended with its subtasks fetched by
`fetch`.  On a row that fails to scan the code logs and says `continue`;
the driver has closed the rows on the scan error, so the next `rows.Next()`
is false and the loop ends with the tasks appended so far.  The outer `none`:
a nested fetch does not return. -/
def scanLoop (fetch : String → Option (Option (List Task))) :
    List Row → Option (List Task) → Option (Option (List Task))
  | [], acc => some acc
  | r :: rest, acc =>
    match scan r with
    | .error _ => some acc
    | .ok task =>
      match fetch task.ID with
      | none => none
      | some sub => scanLoop fetch rest (appendTask acc { task with SubTasks := sub })

namespace TaskRepository

/-- The method `getSubtasksForTask`.  The first argument counts the free
connections of the pool.  `Query` takes one connection and the rows keep it
(`defer rows.Close()`) while the loop runs, so the nested call finds one
connection fewer.  With no free connection `Query` waits in the pool without
a deadline (`context.Background()`): the call never returns, which is the
outer `none`.  A query error yields the empty non-nil slice; otherwise the
result starts as the nil slice `var subtasks []models.Task`. -/
def getSubtasksForTask : Nat → DB → String → Option (Option (List Task))
  | 0, _, _ => none
  | conns + 1, db, parentID =>
    match db.queryChildren parentID with
    | .error _ => some (some [])
    | .ok rows => scanLoop (getSubtasksForTask conns db) rows none

/-- The method `GetTasks`: its own rows keep one connection while the loop
fetches the subtasks. -/
def GetTasks : Nat → DB → Option (Option (List Task))
  | 0, _ => none
  | conns + 1, db =>
    match db.queryTop with
    | .error _ => some (some [])
    | .ok rows => scanLoop (getSubtasksForTask conns db) rows none

/-- The method `GetTask`: the task (nil on error) and the error.  The `Scan`
of `QueryRow` gives its connection back before the subtasks are fetched. -/
def GetTask : Nat → DB → String → Option (Option Task × Option Error)
  | 0, _, _ => none
  | conns + 1, db, id =>
    match (db.queryRow id).bind scan with
    | .error e => some (none, some (ErrorfV "task not found" e))
    | .ok task =>
      match getSubtasksForTask (conns + 1) db task.ID with
      | none => none
      | some sub => some (some { task with SubTasks := sub }, none)

/-- The row an `INSERT` or `UPDATE` writes for a task. -/
def rowOf (task : Task) (parent : Option String) : Row :=
  ⟨task.ID, task.Title, some task.Description, task.Priority, task.Status, task.StartDate,
    task.DueDate, task.DueTime, parent⟩

/-- The method `CreateTask`: the error and the database afterwards. -/
def CreateTask (db : DB) (task : Task) : Option Error × DB :=
  match db.insert (rowOf task none) with
  | .error e => (some (ErrorfV "error creating task" e), db)
  | .ok db1 => (none, db1)

/-- The method `UpdateTask`. -/
def UpdateTask (db : DB) (task : Task) : Option Error × DB :=
  match db.update task.ID (fun r => rowOf task r.parent_id) with
  | .error e => (some (ErrorfV "error updating task" e), db)
  | .ok (db1, rowsAffected) =>
    if rowsAffected = 0 then (some (Errorf "task not found"), db1)
    else (none, db1)

/-- The method `DeleteTask`. -/
def DeleteTask (db : DB) (id : String) : Option Error × DB :=
  match db.delete id with
  | .error e => (some (ErrorfV "error deleting task" e), db)
  | .ok (db1, rowsAffected) =>
    if rowsAffected = 0 then (some (Errorf "task not found"), db1)
    else (none, db1)

/-- The method `CreateSubtask`. -/
def CreateSubtask (db : DB) (parentID : String) (subtask : Task) : Option Error × DB :=
  match db.insert (rowOf subtask (some parentID)) with
  | .error e => (some (ErrorfV "error creating subtask" e), db)
  | .ok db1 => (none, db1)

/-- The method `GetSubtasks`: the error is always nil. -/
def GetSubtasks (conns : Nat) (db : DB) (id : String) :
    Option (Option (List Task) × Option Error) :=
  match getSubtasksForTask conns db id with
  | none => none
  | some subtasks => some (subtasks, none)

end TaskRepository

/-! ## services/task_service.go -/

namespace TaskService

def GetTasks (conns : Nat) (db : DB) : Option (Option (List Task)) :=
  TaskRepository.GetTasks conns db

def GetTask (conns : Nat) (db : DB) (id : String) : Option (Option Task × Option Error) :=
  TaskRepository.GetTask conns db id

/-- The method `CreateTask(task *models.Task) error`: the error, the task the
pointer refers to afterwards, and the database afterwards. -/
def CreateTask (db : DB) (now1 now2 : Time) (task : Task) : Option Error × Task × DB :=
  match validateTask task with
  | some err => (some err, task, db)
  | none =>
    let task := { task with ID := now1.idString }
    let task := if task.Priority = "" then { task with Priority := PriorityMedium } else task
    let task := if task.Status = "" then { task with Status := StatusBacklog } else task
    let task := if task.StartDate = "" then { task with StartDate := now2.Format } else task
    let task := if task.SubTasks.isNone then { task with SubTasks := some [] } else task
    let res := TaskRepository.CreateTask db task
    (res.1, task, res.2)

/-- The method `UpdateTask(task models.Task) error`. -/
def UpdateTask (db : DB) (task : Task) : Option Error × DB :=
  match validateTask task with
  | some err => (some err, db)
  | none => TaskRepository.UpdateTask db task

def DeleteTask (db : DB) (id : String) : Option Error × DB :=
  TaskRepository.DeleteTask db id

def GetSubtasks (conns : Nat) (db : DB) (id : String) :
    Option (Option (List Task) × Option Error) :=
  TaskRepository.GetSubtasks conns db id

/-- The method `CreateSubtask(parentID string, subtask *models.Task) error`. -/
def CreateSubtask (db : DB) (now1 now2 : Time) (parentID : String) (subtask : Task) :
    Option Error × Task × DB :=
  match validateTask subtask with
  | some err => (some err, subtask, db)
  | none =>
    let subtask := { subtask with ID := now1.idString }
    let subtask :=
      if subtask.Priority = "" then { subtask with Priority := PriorityMedium } else subtask
    let subtask :=
      if subtask.Status = "" then { subtask with Status := StatusBacklog } else subtask
    let subtask :=
      if subtask.StartDate = "" then { subtask with StartDate := now2.Format } else subtask
    let subtask :=
      if subtask.SubTasks.isNone then { subtask with SubTasks := some [] } else subtask
    let res := TaskRepository.CreateSubtask db parentID subtask
    (res.1, subtask, res.2)

end TaskService

/-! ## handlers/task_handler.go -/

/-- What a handler writes with `c.JSON`. -/
inductive Body where
  | error (err : Error)
  | tasks (ts : Option (List Task))

/-- The HTTP status and the body. -/
structure Response where
  code : Nat
  body : Body

namespace TaskHandler

/-- The handler `GetSubtasks`: 404 with the error text when the service
returns an error, else 200 with the subtasks. -/
def GetSubtasks (conns : Nat) (db : DB) (id : String) : Option Response :=
  match TaskService.GetSubtasks conns db id with
  | none => none
  | some (_, some err) => some ⟨404, .error err⟩
  | some (subtasks, none) => some ⟨200, .tasks subtasks⟩

end TaskHandler

/-! ## Notions of the specification -/

/-- Row `r` is a descendant of id `p`: a child of `p`, or a child of a
descendant of `p`. -/
inductive Descends (rows : List Row) : String → Row → Prop where
  | child {p : String} {r : Row} : r ∈ rows → r.parent_id = some p → Descends rows p r
  | step {p : String} {q r : Row} :
      Descends rows p q → r ∈ rows → r.parent_id = some q.id → Descends rows p r

/-- The parent links contain no cycle: no row is its own descendant. -/
def Acyclic (rows : List Row) : Prop := ∀ r, ¬ Descends rows r.id r

mutual
/-- Every `SubTasks` slice of the task, at every depth, is non-nil. -/
def Task.noNil : Task → Bool
  | ⟨_, _, _, _, _, _, _, _, sub⟩ => sliceNoNil sub
/-- The slice is non-nil and so is every slice nested in it. -/
def sliceNoNil : Option (List Task) → Bool
  | none => false
  | some ts => listNoNil ts
/-- All tasks of the list satisfy `Task.noNil`. -/
def listNoNil : List Task → Bool
  | [] => true
  | t :: ts => t.noNil && listNoNil ts
end

/-- The priorities of the enumeration. -/
def validPriority (p : String) : Prop := p = "low" ∨ p = "medium" ∨ p = "high"

/-- The statuses of the enumeration. -/
def validStatus (s : String) : Prop := s = "backlog" ∨ s = "active" ∨ s = "finished"

/-- The invariant on persisted rows: every row has an enumerated priority and
an enumerated status. -/
def RowsValid (rows : List Row) : Prop :=
  ∀ r ∈ rows, validPriority r.priority ∧ validStatus r.status

/-- The task after creation as the specification describes it: the fresh id,
and priority, status, startDate and subTasks each replaced by its default
when empty. -/
def filled (now1 now2 : Time) (task : Task) : Task :=
  { ID := now1.idString
    Title := task.Title
    Description := task.Description
    Priority := if task.Priority = "" then "medium" else task.Priority
    Status := if task.Status = "" then "backlog" else task.Status
    StartDate := if task.StartDate = "" then now2.Format else task.StartDate
    DueDate := task.DueDate
    DueTime := task.DueTime
    SubTasks := some (task.SubTasks.getD []) }

theorem digitVal_le {c : Char} (h : digitByte c = true) : digitVal c ≤ 9 := by
  simp [digitByte] at h
  unfold digitVal
  omega

theorem getnum_fixed (s : List Char) :
    getnum s true =
      match s with
      | c0 :: c1 :: rest =>
        if digitByte c0 = true ∧ digitByte c1 = true then
          some (((digitVal c0 * 10 + digitVal c1 : Nat) : Int), rest)
        else none
      | _ => none := by
  rcases s with _ | ⟨c0, _ | ⟨c1, rest⟩⟩
  · simp [getnum, isDigit]
  · simp [getnum, isDigit]
  · by_cases h0 : digitByte c0 = true <;> by_cases h1 : digitByte c1 = true <;>
      simp [getnum, isDigit, h0, h1]

theorem getnum_free (s : List Char) :
    getnum s false =
      match s with
      | [] => none
      | [c0] => if digitByte c0 = true then some ((digitVal c0 : Int), []) else none
      | c0 :: c1 :: rest =>
        if digitByte c0 = true then
          (if digitByte c1 = true then some (((digitVal c0 * 10 + digitVal c1 : Nat) : Int), rest)
           else some ((digitVal c0 : Int), c1 :: rest))
        else none := by
  rcases s with _ | ⟨c0, _ | ⟨c1, rest⟩⟩
  · simp [getnum, isDigit]
  · by_cases h0 : digitByte c0 = true <;> simp [getnum, isDigit, h0]
  · by_cases h0 : digitByte c0 = true <;> by_cases h1 : digitByte c1 = true <;>
      simp [getnum, isDigit, h0, h1]

theorem parseStd_year (value : List Char) (f : Parsed) :
    parseStd .stdLongYear value f =
      match value with
      | c0 :: c1 :: c2 :: c3 :: rest =>
        if digitByte c0 = true ∧ digitByte c1 = true ∧ digitByte c2 = true ∧ digitByte c3 = true then
          some ({ f with year := ((digitVal c0 * 1000 + digitVal c1 * 100 + digitVal c2 * 10 + digitVal c3 : Nat) : Int) }, rest)
        else none
      | _ => none := by
  rcases value with _ | ⟨c0, _ | ⟨c1, _ | ⟨c2, _ | ⟨c3, rest⟩⟩⟩⟩
  · simp [parseStd]
  · simp [parseStd]
  · simp [parseStd]
  · simp [parseStd]
  · have hlen : ¬ (rest.length + 1 + 1 + 1 + 1 < 4) := by omega
    by_cases h0 : digitByte c0 = true
    · have hm : c0 ≠ '-' := by
        rintro rfl
        exact absurd h0 (by decide)
      have hp : c0 ≠ '+' := by
        rintro rfl
        exact absurd h0 (by decide)
      have b0 := digitVal_le h0
      by_cases h1 : digitByte c1 = true
      · have b1 := digitVal_le h1
        by_cases h2 : digitByte c2 = true
        · have b2 := digitVal_le h2
          by_cases h3 : digitByte c3 = true
          · have b3 := digitVal_le h3
            have e1 : ¬ (9223372036854775808 < digitVal c0) := by omega
            have e2 : ¬ (922337203685477580 < digitVal c0) := by omega
            have e3 : ¬ (9223372036854775808 < digitVal c0 * 10 + digitVal c1) := by omega
            have e4 : ¬ (922337203685477580 < digitVal c0 * 10 + digitVal c1) := by omega
            have e5 : ¬ (9223372036854775808 < (digitVal c0 * 10 + digitVal c1) * 10 + digitVal c2) := by omega
            have e6 : ¬ (922337203685477580 < (digitVal c0 * 10 + digitVal c1) * 10 + digitVal c2) := by omega
            have e7 : ¬ (9223372036854775808 < ((digitVal c0 * 10 + digitVal c1) * 10 + digitVal c2) * 10 + digitVal c3) := by omega
            simp [parseStd, isDigit, atoi, leadingInt, h0, h1, h2, h3, hm, hp, e1, e2, e3, e4, e5, e6, e7]
            omega
          · simp [parseStd, isDigit, atoi, leadingInt, h0, h1, h2, h3, hm, hp]
            split_ifs <;> simp
        · simp [parseStd, isDigit, atoi, leadingInt, h0, h1, h2, hm, hp]
          split_ifs <;> simp
      · simp [parseStd, isDigit, atoi, leadingInt, h0, h1, hm, hp]
        split_ifs <;> simp
    · simp [parseStd, isDigit, h0]

theorem parseStd_month (value : List Char) (f : Parsed) :
    parseStd .stdZeroMonth value f =
      match value with
      | c0 :: c1 :: rest =>
        if digitByte c0 = true ∧ digitByte c1 = true ∧ 1 ≤ digitVal c0 * 10 + digitVal c1 ∧
            digitVal c0 * 10 + digitVal c1 ≤ 12 then
          some ({ f with month := ((digitVal c0 * 10 + digitVal c1 : Nat) : Int) }, rest)
        else none
      | _ => none := by
  rcases value with _ | ⟨c0, _ | ⟨c1, rest⟩⟩
  · simp [parseStd, getnum_fixed]
  · simp [parseStd, getnum_fixed]
  · by_cases h0 : digitByte c0 = true <;> by_cases h1 : digitByte c1 = true <;>
      simp [parseStd, getnum_fixed, h0, h1]
    by_cases hr : 1 ≤ digitVal c0 * 10 + digitVal c1 ∧ digitVal c0 * 10 + digitVal c1 ≤ 12
    · have : ¬ (((digitVal c0 : Int) * 10 + (digitVal c1 : Int) ≤ 0) ∨
          (12 : Int) < (digitVal c0 : Int) * 10 + (digitVal c1 : Int)) := by omega
      simp [hr, this]
    · have : (((digitVal c0 : Int) * 10 + (digitVal c1 : Int) ≤ 0) ∨
          (12 : Int) < (digitVal c0 : Int) * 10 + (digitVal c1 : Int)) := by omega
      simp only [this, if_true]
      rw [if_neg hr]

theorem parseStd_day (value : List Char) (f : Parsed) :
    parseStd .stdZeroDay value f =
      match value with
      | c0 :: c1 :: rest =>
        if digitByte c0 = true ∧ digitByte c1 = true then
          some ({ f with day := ((digitVal c0 * 10 + digitVal c1 : Nat) : Int) }, rest)
        else none
      | _ => none := by
  rcases value with _ | ⟨c0, _ | ⟨c1, rest⟩⟩
  · simp [parseStd, getnum_fixed]
  · simp [parseStd, getnum_fixed]
  · by_cases h0 : digitByte c0 = true <;> by_cases h1 : digitByte c1 = true <;>
      simp [parseStd, getnum_fixed, h0, h1]

theorem isLeap_nat (y : Nat) :
    isLeap (y : Int) = decide (y % 400 = 0 ∨ (y % 4 = 0 ∧ y % 100 ≠ 0)) := by
  unfold isLeap
  by_cases h4 : y % 4 = 0 <;> by_cases h100 : y % 100 = 0 <;> by_cases h400 : y % 400 = 0 <;>
    simp [h4, h100, h400] <;> omega

theorem daysIn_calendar (y m : Nat) (h1 : 1 ≤ m) (h2 : m ≤ 12) :
    daysIn (m : Int) (y : Int) = (calendarDays y m : Int) := by
  unfold daysIn
  rw [isLeap_nat]
  interval_cases m <;> simp [calendarDays, daysBefore]

theorem parseFinish_date (y m d : Nat) (hr mi : Int) (h1 : 1 ≤ m) (h2 : m ≤ 12) :
    parseFinish ⟨(y : Int), (m : Int), (d : Int), hr, mi⟩ =
      (decide (1 ≤ d) && decide (d ≤ calendarDays y m)) := by
  have hm : ¬ ((m : Int) < 0) := by omega
  have hd : ¬ ((d : Int) < 0) := by omega
  simp only [parseFinish, hm, hd, if_false, daysIn_calendar y m h1 h2]
  by_cases a : 1 ≤ d <;> by_cases b : d ≤ calendarDays y m <;> simp [a, b] <;> omega

theorem chunks_day (l : List Char) (f : Parsed) :
    parseChunks [(['-'], .stdZeroDay)] l f =
      match l with
      | [h, d1, d2] =>
        if h = '-' ∧ digitByte d1 = true ∧ digitByte d2 = true then
          some { f with day := ((digitVal d1 * 10 + digitVal d2 : Nat) : Int) }
        else none
      | _ => none := by
  rcases l with _ | ⟨h, _ | ⟨d1, _ | ⟨d2, _ | ⟨e, rest⟩⟩⟩⟩ <;>
    simp only [parseChunks, skip, parseStd_day]
  · by_cases hh : h = '-' <;> simp [hh]
  · by_cases hh : h = '-' <;> simp [hh]
  · by_cases hh : h = '-' <;> by_cases hd : digitByte d1 = true ∧ digitByte d2 = true <;>
      simp [hh, hd]
  · by_cases hh : h = '-' <;> by_cases hd : digitByte d1 = true ∧ digitByte d2 = true <;>
      simp [hh, hd]

theorem chunks_month (l : List Char) (f : Parsed) :
    parseChunks [(['-'], .stdZeroMonth), (['-'], .stdZeroDay)] l f =
      match l with
      | h :: m1 :: m2 :: rest =>
        if h = '-' ∧ digitByte m1 = true ∧ digitByte m2 = true ∧ 1 ≤ digitVal m1 * 10 + digitVal m2 ∧
            digitVal m1 * 10 + digitVal m2 ≤ 12 then
          parseChunks [(['-'], .stdZeroDay)] rest
            { f with month := ((digitVal m1 * 10 + digitVal m2 : Nat) : Int) }
        else none
      | _ => none := by
  rcases l with _ | ⟨h, _ | ⟨m1, _ | ⟨m2, rest⟩⟩⟩ <;>
    simp only [parseChunks, skip, parseStd_month]
  · by_cases hh : h = '-' <;> simp [hh]
  · by_cases hh : h = '-' <;> simp [hh]
  · by_cases hh : h = '-'
    · by_cases hd : digitByte m1 = true ∧ digitByte m2 = true ∧ 1 ≤ digitVal m1 * 10 + digitVal m2 ∧
            digitVal m1 * 10 + digitVal m2 ≤ 12
      · simp only [hh, hd, ne_eq, not_true_eq_false, if_false, if_true, and_self]
      · simp only [hh, hd, ne_eq, not_true_eq_false, if_false, if_true, and_false]
    · simp [hh]

theorem chunks_year (l : List Char) (f : Parsed) :
    parseChunks layoutDate l f =
      match l with
      | y1 :: y2 :: y3 :: y4 :: rest =>
        if digitByte y1 = true ∧ digitByte y2 = true ∧ digitByte y3 = true ∧ digitByte y4 = true then
          parseChunks [(['-'], .stdZeroMonth), (['-'], .stdZeroDay)] rest
            { f with year := ((digitVal y1 * 1000 + digitVal y2 * 100 + digitVal y3 * 10 + digitVal y4 : Nat) : Int) }
        else none
      | _ => none := by
  rcases l with _ | ⟨y1, _ | ⟨y2, _ | ⟨y3, _ | ⟨y4, rest⟩⟩⟩⟩ <;>
    simp only [layoutDate, parseChunks, skip, parseStd_year]
  by_cases hd : digitByte y1 = true ∧ digitByte y2 = true ∧ digitByte y3 = true ∧ digitByte y4 = true
  · simp only [hd, if_true, and_self]
  · simp only [hd, if_false]

/-- The parser accepts a date string exactly when it has the form YYYY-MM-DD. -/
theorem timeParseOk_date (s : String) : timeParseOk layoutDate s = isDateForm s := by
  unfold timeParseOk isDateForm
  generalize s.data = l
  rw [chunks_year]
  rcases l with _ | ⟨y1, _ | ⟨y2, _ | ⟨y3, _ | ⟨y4, l⟩⟩⟩⟩ <;> try rfl
  by_cases hy : digitByte y1 = true ∧ digitByte y2 = true ∧ digitByte y3 = true ∧ digitByte y4 = true
  · simp only [hy, if_true, and_self, chunks_month]
    rcases l with _ | ⟨h1, _ | ⟨m1, _ | ⟨m2, l⟩⟩⟩ <;> try rfl
    by_cases hm : h1 = '-' ∧ digitByte m1 = true ∧ digitByte m2 = true ∧
        1 ≤ digitVal m1 * 10 + digitVal m2 ∧ digitVal m1 * 10 + digitVal m2 ≤ 12
    · simp only [hm, if_true, and_self, chunks_day]
      rcases l with _ | ⟨h2, _ | ⟨d1, _ | ⟨d2, _ | ⟨e, l⟩⟩⟩⟩ <;> try rfl
      by_cases hd : h2 = '-' ∧ digitByte d1 = true ∧ digitByte d2 = true
      · simp only [hd, if_true, and_self]
        rw [parseFinish_date _ _ _ _ _ hm.2.2.2.1 hm.2.2.2.2]
        simp [hy, hm, hd]
      · simp only [hd, if_false]
        simp only [not_and] at hd
        symm
        simp only [Bool.and_eq_false_iff, decide_eq_false_iff_not, Bool.not_eq_true] at hd ⊢
        by_cases c1 : h2 = '-'
        · by_cases c2 : digitByte d1 = true
          · simp [c1, c2, hd c1 c2]
          · simp [c2]
        · simp [c1]
    · simp only [hm, if_false]
      symm
      rcases l with _ | ⟨h2, _ | ⟨d1, _ | ⟨d2, _ | ⟨e, l⟩⟩⟩⟩ <;> try rfl
      by_cases c1 : h1 = '-'
      · by_cases c2 : digitByte m1 = true
        · by_cases c3 : digitByte m2 = true
          · have : ¬ (1 ≤ digitVal m1 * 10 + digitVal m2 ∧ digitVal m1 * 10 + digitVal m2 ≤ 12) := by
              intro h
              exact hm ⟨c1, c2, c3, h⟩
            by_cases c4 : 1 ≤ digitVal m1 * 10 + digitVal m2
            · have c5 : ¬ (digitVal m1 * 10 + digitVal m2 ≤ 12) := fun h => this ⟨c4, h⟩
              simp [c5]
            · simp [c4]
          · simp [c3]
        · simp [c2]
      · simp [c1]
  · simp only [hy, if_false]
    symm
    rcases l with _ | ⟨h1, _ | ⟨m1, _ | ⟨m2, _ | ⟨h2, _ | ⟨d1, _ | ⟨d2, _ | ⟨e, l⟩⟩⟩⟩⟩⟩⟩ <;> try rfl
    by_cases c1 : digitByte y1 = true
    · by_cases c2 : digitByte y2 = true
      · by_cases c3 : digitByte y3 = true
        · have c4 : ¬ digitByte y4 = true := fun h => hy ⟨c1, c2, c3, h⟩
          simp [c4]
        · simp [c3]
      · simp [c2]
    · simp [c1]

theorem parseStd_minute (value : List Char) (f : Parsed) :
    parseStd .stdZeroMinute value f =
      match value with
      | c0 :: c1 :: rest =>
        if digitByte c0 = true ∧ digitByte c1 = true ∧ digitVal c0 * 10 + digitVal c1 ≤ 59 then
          some ({ f with min := ((digitVal c0 * 10 + digitVal c1 : Nat) : Int) }, rest)
        else none
      | _ => none := by
  rcases value with _ | ⟨c0, _ | ⟨c1, rest⟩⟩
  · simp [parseStd, getnum_fixed]
  · simp [parseStd, getnum_fixed]
  · by_cases h0 : digitByte c0 = true <;> by_cases h1 : digitByte c1 = true <;>
      simp [parseStd, getnum_fixed, h0, h1]
    by_cases hr : digitVal c0 * 10 + digitVal c1 ≤ 59
    · have : ¬ (((digitVal c0 : Int) * 10 + (digitVal c1 : Int) < 0) ∨
          (60 : Int) ≤ (digitVal c0 : Int) * 10 + (digitVal c1 : Int)) := by omega
      simp [hr, this]
    · have : (((digitVal c0 : Int) * 10 + (digitVal c1 : Int) < 0) ∨
          (60 : Int) ≤ (digitVal c0 : Int) * 10 + (digitVal c1 : Int)) := by omega
      simp only [this, if_true]
      rw [if_neg hr]

theorem chunks_minute (l : List Char) (f : Parsed) :
    parseChunks [([':'], .stdZeroMinute)] l f =
      match l with
      | [c, b1, b2] =>
        if c = ':' ∧ digitByte b1 = true ∧ digitByte b2 = true ∧
            digitVal b1 * 10 + digitVal b2 ≤ 59 then
          some { f with min := ((digitVal b1 * 10 + digitVal b2 : Nat) : Int) }
        else none
      | _ => none := by
  rcases l with _ | ⟨h, _ | ⟨d1, _ | ⟨d2, _ | ⟨e, rest⟩⟩⟩⟩ <;>
    simp only [parseChunks, skip, parseStd_minute]
  · by_cases hh : h = ':' <;> simp [hh]
  · by_cases hh : h = ':' <;> simp [hh]
  · by_cases hh : h = ':' <;>
      by_cases hd : digitByte d1 = true ∧ digitByte d2 = true ∧ digitVal d1 * 10 + digitVal d2 ≤ 59 <;>
      simp [hh, hd]
  · by_cases hh : h = ':' <;>
      by_cases hd : digitByte d1 = true ∧ digitByte d2 = true ∧ digitVal d1 * 10 + digitVal d2 ≤ 59 <;>
      simp [hh, hd]

theorem parseStd_hour (value : List Char) (f : Parsed) :
    parseStd .stdHour value f =
      match value with
      | [] => none
      | [c0] => if digitByte c0 = true then some ({ f with hour := (digitVal c0 : Int) }, []) else none
      | c0 :: c1 :: rest =>
        if digitByte c0 = true then
          (if digitByte c1 = true then
            (if digitVal c0 * 10 + digitVal c1 ≤ 23 then
              some ({ f with hour := ((digitVal c0 * 10 + digitVal c1 : Nat) : Int) }, rest)
             else none)
           else some ({ f with hour := (digitVal c0 : Int) }, c1 :: rest))
        else none := by
  rcases value with _ | ⟨c0, _ | ⟨c1, rest⟩⟩
  · simp [parseStd, getnum_free]
  · by_cases h0 : digitByte c0 = true
    · have := digitVal_le h0
      have e : ¬ ((digitVal c0 : Int) < 0 ∨ (24 : Int) ≤ (digitVal c0 : Int)) := by omega
      simp [parseStd, getnum_free, h0]
      omega
    · simp [parseStd, getnum_free, h0]
  · by_cases h0 : digitByte c0 = true
    · have b0 := digitVal_le h0
      by_cases h1 : digitByte c1 = true
      · by_cases hr : digitVal c0 * 10 + digitVal c1 ≤ 23
        · have e : ¬ (((digitVal c0 : Int) * 10 + (digitVal c1 : Int) < 0) ∨
              (24 : Int) ≤ (digitVal c0 : Int) * 10 + (digitVal c1 : Int)) := by omega
          simp [parseStd, getnum_free, h0, h1, hr, e]
        · have e : (((digitVal c0 : Int) * 10 + (digitVal c1 : Int) < 0) ∨
              (24 : Int) ≤ (digitVal c0 : Int) * 10 + (digitVal c1 : Int)) := by omega
          simp [parseStd, getnum_free, h0, h1, hr, e]
      · simp [parseStd, getnum_free, h0, h1]
        omega
    · simp [parseStd, getnum_free, h0]

theorem parseFinish_clock (hr mi : Int) : parseFinish ⟨0, -1, -1, hr, mi⟩ = true := by
  simp [parseFinish, daysIn, daysBefore, isLeap]

theorem chunks_hour (l : List Char) (f : Parsed) :
    parseChunks layoutClock l f =
      match parseStd .stdHour l f with
      | none => none
      | some (f1, v2) => parseChunks [([':'], .stdZeroMinute)] v2 f1 := by
  cases l <;> simp only [layoutClock, parseChunks, skip]

theorem not_colon_of_digit {c : Char} (h : digitByte c = true) : c ≠ ':' := by
  rintro rfl
  exact absurd h (by decide)

/-- The parser accepts a time string exactly when it is HH:MM or H:MM. -/
theorem timeParseOk_clock (s : String) :
    timeParseOk layoutClock s = (isClockForm s || isShortClockForm s) := by
  unfold timeParseOk isClockForm isShortClockForm
  generalize s.data = l
  rw [chunks_hour, parseStd_hour]
  rcases l with _ | ⟨c0, _ | ⟨c1, _ | ⟨c2, _ | ⟨c3, _ | ⟨c4, _ | ⟨c5, l⟩⟩⟩⟩⟩⟩
  · rfl
  · by_cases h0 : digitByte c0 = true <;> simp [h0, chunks_minute]
  · by_cases h0 : digitByte c0 = true <;> by_cases h1 : digitByte c1 = true <;>
      simp [h0, h1, chunks_minute]
    split_ifs <;> simp
  · by_cases h0 : digitByte c0 = true <;> by_cases h1 : digitByte c1 = true <;>
      simp [h0, h1, chunks_minute]
    split_ifs <;> simp
  · by_cases h0 : digitByte c0 = true <;> by_cases h1 : digitByte c1 = true <;>
      simp [h0, h1, chunks_minute]
    · split_ifs <;> simp [not_colon_of_digit h1]
    · by_cases hc : c1 = ':' ∧ digitByte c2 = true ∧ digitByte c3 = true ∧
          digitVal c2 * 10 + digitVal c3 ≤ 59
      · simp [hc, parseFinish_clock]
      · rw [if_neg hc]
        symm
        simp only [Bool.and_eq_false_iff, decide_eq_false_iff_not, Bool.not_eq_true]
        by_cases a1 : c1 = ':'
        · by_cases a2 : digitByte c2 = true
          · by_cases a3 : digitByte c3 = true
            · have : ¬ digitVal c2 * 10 + digitVal c3 ≤ 59 := fun h => hc ⟨a1, a2, a3, h⟩
              simp [this]
            · simp [a3]
          · simp [a2]
        · simp [a1]
  · by_cases h0 : digitByte c0 = true <;> by_cases h1 : digitByte c1 = true <;>
      simp [h0, h1, chunks_minute]
    by_cases hr : digitVal c0 * 10 + digitVal c1 ≤ 23
    · simp only [hr, if_true]
      by_cases hc : c2 = ':' ∧ digitByte c3 = true ∧ digitByte c4 = true ∧
          digitVal c3 * 10 + digitVal c4 ≤ 59
      · simp [hc, parseFinish_clock]
      · rw [if_neg hc]
        symm
        simp only [Bool.and_eq_false_iff, decide_eq_false_iff_not, Bool.not_eq_true]
        by_cases a1 : c2 = ':'
        · by_cases a2 : digitByte c3 = true
          · by_cases a3 : digitByte c4 = true
            · have : ¬ digitVal c3 * 10 + digitVal c4 ≤ 59 := fun h => hc ⟨a1, a2, a3, h⟩
              simp [this]
            · simp [a3]
          · simp [a2]
        · simp [a1]
    · simp [hr]
  · by_cases h0 : digitByte c0 = true <;> by_cases h1 : digitByte c1 = true <;>
      simp [h0, h1, chunks_minute]
    split_ifs <;> simp

/-! ## Validation -/

/-- The six checks of `validateTask`, read off its `if` cascade. -/
theorem validateTask_eq_none (task : Task) :
    TaskService.validateTask task = none ↔
      task.Title ≠ "" ∧
      ¬ (task.Priority ≠ "" ∧ task.Priority ≠ "low" ∧ task.Priority ≠ "medium" ∧
        task.Priority ≠ "high") ∧
      ¬ (task.Status ≠ "" ∧ task.Status ≠ "backlog" ∧ task.Status ≠ "active" ∧
        task.Status ≠ "finished") ∧
      ¬ (task.StartDate ≠ "" ∧ timeParseOk layoutDate task.StartDate = false) ∧
      ¬ (task.DueDate ≠ none ∧ timeParseOk layoutDate (task.DueDate.getD "") = false) ∧
      ¬ (task.DueTime ≠ none ∧ timeParseOk layoutClock (task.DueTime.getD "") = false) := by
  unfold TaskService.validateTask
  simp only [PriorityLow, PriorityMedium, PriorityHigh, StatusBacklog, StatusActive,
    StatusFinished]
  split_ifs with h1 h2 h3 h4 h5 h6
  · simp [h1]
  · exact ⟨fun h => by simp at h, fun h => absurd h2 h.2.1⟩
  · exact ⟨fun h => by simp at h, fun h => absurd h3 h.2.2.1⟩
  · exact ⟨fun h => by simp at h, fun h => absurd h4 h.2.2.2.1⟩
  · exact ⟨fun h => by simp at h, fun h => absurd h5 h.2.2.2.2.1⟩
  · exact ⟨fun h => by simp at h, fun h => absurd h6 h.2.2.2.2.2⟩
  · exact ⟨fun _ => ⟨h1, h2, h3, h4, h5, h6⟩, fun _ => rfl⟩

open TaskService in
/-- C1: for a task with empty startDate and absent dueDate and dueTime,
validateTask succeeds exactly when the title is non-empty, the priority is
empty or one of low/medium/high and the status is empty or one of
backlog/active/finished; an empty title, priority "urgent" and status "done"
are each rejected. -/
theorem validateTask_title_priority_status (task : Task)
    (hs : task.StartDate = "") (hd : task.DueDate = none) (ht : task.DueTime = none) :
    (validateTask task = none ↔
      task.Title ≠ "" ∧
      (task.Priority = "" ∨ task.Priority = "low" ∨ task.Priority = "medium" ∨
        task.Priority = "high") ∧
      (task.Status = "" ∨ task.Status = "backlog" ∨ task.Status = "active" ∨
        task.Status = "finished")) ∧
    (task.Title = "" → validateTask task ≠ none) ∧
    (task.Priority = "urgent" → validateTask task ≠ none) ∧
    (task.Status = "done" → validateTask task ≠ none) := by
  have key : validateTask task = none ↔
      task.Title ≠ "" ∧
      (task.Priority = "" ∨ task.Priority = "low" ∨ task.Priority = "medium" ∨
        task.Priority = "high") ∧
      (task.Status = "" ∨ task.Status = "backlog" ∨ task.Status = "active" ∨
        task.Status = "finished") := by
    rw [validateTask_eq_none]
    have a : ¬ (task.StartDate ≠ "" ∧ timeParseOk layoutDate task.StartDate = false) :=
      fun h => h.1 hs
    have b : ¬ (task.DueDate ≠ none ∧ timeParseOk layoutDate (task.DueDate.getD "") = false) :=
      fun h => h.1 hd
    have c : ¬ (task.DueTime ≠ none ∧ timeParseOk layoutClock (task.DueTime.getD "") = false) :=
      fun h => h.1 ht
    constructor
    · rintro ⟨h1, h2, h3, -⟩
      refine ⟨h1, ?_, ?_⟩
      · by_contra hc
        push_neg at hc
        exact h2 hc
      · by_contra hc
        push_neg at hc
        exact h3 hc
    · rintro ⟨h1, h2, h3⟩
      refine ⟨h1, ?_, ?_, a, b, c⟩
      · rintro ⟨n1, n2, n3, n4⟩
        rcases h2 with h | h | h | h
        exacts [n1 h, n2 h, n3 h, n4 h]
      · rintro ⟨n1, n2, n3, n4⟩
        rcases h3 with h | h | h | h
        exacts [n1 h, n2 h, n3 h, n4 h]
  refine ⟨key, ?_, ?_, ?_⟩
  · intro h hv
    exact (key.1 hv).1 h
  · intro h hv
    have := (key.1 hv).2.1
    rw [h] at this
    revert this
    decide
  · intro h hv
    have := (key.1 hv).2.2
    rw [h] at this
    revert this
    decide

/-- Witness of C1 at a task with only a title and priority high. -/
theorem validateTask_title_priority_status_witness :
    (⟨"", "Buy milk", "", "high", "", "", none, none, none⟩ : Task).StartDate = "" ∧
    TaskService.validateTask ⟨"", "Buy milk", "", "high", "", "", none, none, none⟩ = none :=
  ⟨rfl, (validateTask_title_priority_status ⟨"", "Buy milk", "", "high", "", "", none, none, none⟩
    rfl rfl rfl).1.2 ⟨by decide, by decide, by decide⟩⟩

open TaskService in
/-- C2, as stated, fails: a task whose only date or time field is the dueTime
"9:30" passes validation although "9:30" has no two-digit hour. -/
theorem validateTask_accepts_one_digit_hour :
    (⟨"", "a", "", "", "", "", none, some "9:30", none⟩ : Task).Title ≠ "" ∧
    validateTask ⟨"", "a", "", "", "", "", none, some "9:30", none⟩ = none ∧
    isClockForm "9:30" = false := by
  refine ⟨by decide, ?_, by decide⟩
  rw [validateTask_eq_none]
  decide

open TaskService in
/-- C2, amended: for a task with a non-empty title and an empty or enumerated
priority and status, validateTask succeeds exactly when startDate is empty or
has the form YYYY-MM-DD, dueDate is absent or has that form, and dueTime is
absent or has the form HH:MM or H:MM (hour 0-23 in one or two digits, minute
00-59 in two digits); startDate "15-01-2024" and dueTime "25:99" are
rejected. -/
theorem validateTask_dates (task : Task) (ht : task.Title ≠ "")
    (hp : task.Priority = "" ∨ task.Priority = "low" ∨ task.Priority = "medium" ∨
      task.Priority = "high")
    (hst : task.Status = "" ∨ task.Status = "backlog" ∨ task.Status = "active" ∨
      task.Status = "finished") :
    (validateTask task = none ↔
      (task.StartDate = "" ∨ isDateForm task.StartDate = true) ∧
      (∀ d, task.DueDate = some d → isDateForm d = true) ∧
      (∀ t, task.DueTime = some t → isClockForm t = true ∨ isShortClockForm t = true)) ∧
    (task.StartDate = "15-01-2024" → validateTask task ≠ none) ∧
    (task.DueTime = some "25:99" → validateTask task ≠ none) := by
  have key : validateTask task = none ↔
      (task.StartDate = "" ∨ isDateForm task.StartDate = true) ∧
      (∀ d, task.DueDate = some d → isDateForm d = true) ∧
      (∀ t, task.DueTime = some t → isClockForm t = true ∨ isShortClockForm t = true) := by
    rw [validateTask_eq_none]
    have a : ¬ (task.Priority ≠ "" ∧ task.Priority ≠ "low" ∧ task.Priority ≠ "medium" ∧
        task.Priority ≠ "high") := by
      rintro ⟨n1, n2, n3, n4⟩
      rcases hp with h | h | h | h
      exacts [n1 h, n2 h, n3 h, n4 h]
    have b : ¬ (task.Status ≠ "" ∧ task.Status ≠ "backlog" ∧ task.Status ≠ "active" ∧
        task.Status ≠ "finished") := by
      rintro ⟨n1, n2, n3, n4⟩
      rcases hst with h | h | h | h
      exacts [n1 h, n2 h, n3 h, n4 h]
    simp only [timeParseOk_date, timeParseOk_clock]
    constructor
    · rintro ⟨-, -, -, h4, h5, h6⟩
      refine ⟨?_, ?_, ?_⟩
      · by_cases e : task.StartDate = ""
        · exact Or.inl e
        · right
          by_contra hc
          exact h4 ⟨e, by simpa using hc⟩
      · intro d hd
        by_contra hc
        exact h5 ⟨by simp [hd], by simpa [hd] using hc⟩
      · intro t htm
        by_contra hc
        refine h6 ⟨by simp [htm], ?_⟩
        simp only [htm, Option.getD_some]
        simp only [not_or, Bool.not_eq_true] at hc
        simp [hc.1, hc.2]
    · rintro ⟨h4, h5, h6⟩
      refine ⟨ht, a, b, ?_, ?_, ?_⟩
      · rintro ⟨n1, n2⟩
        rcases h4 with h | h
        · exact n1 h
        · rw [h] at n2
          exact absurd n2 (by decide)
      · rintro ⟨n1, n2⟩
        obtain ⟨d, hd⟩ := Option.ne_none_iff_exists'.1 n1
        rw [hd, Option.getD_some, h5 d hd] at n2
        exact absurd n2 (by decide)
      · rintro ⟨n1, n2⟩
        obtain ⟨t, htm⟩ := Option.ne_none_iff_exists'.1 n1
        rw [htm, Option.getD_some] at n2
        rcases h6 t htm with h | h
        · simp [h] at n2
        · simp [h] at n2
  refine ⟨key, ?_, ?_⟩
  · intro h hv
    have := (key.1 hv).1
    rw [h] at this
    revert this
    decide
  · intro h hv
    have := (key.1 hv).2.2 "25:99" h
    revert this
    decide

/-- Witness of C2 at a task due on 2024-02-29 at 9:30. -/
theorem validateTask_dates_witness :
    (⟨"", "a", "", "", "", "2024-01-15", some "2024-02-29", some "9:30", none⟩ : Task).Title ≠ "" ∧
    TaskService.validateTask
      ⟨"", "a", "", "", "", "2024-01-15", some "2024-02-29", some "9:30", none⟩ = none :=
  ⟨by decide,
   (validateTask_dates ⟨"", "a", "", "", "", "2024-01-15", some "2024-02-29", some "9:30", none⟩
      (by decide) (Or.inl rfl) (Or.inl rfl)).1.2
    ⟨Or.inr (by decide),
     fun d hd => by
      have e : d = "2024-02-29" := by simpa using hd.symm
      rw [e]
      decide,
     fun t h => by
      have e : t = "9:30" := by simpa using h.symm
      rw [e]
      exact Or.inr (by decide)⟩⟩

/-! ## Default filling -/

open TaskService in
/-- C9: when validateTask rejects the task, createTask, createSubtask and
updateTask return exactly that error, the store is unchanged and the
caller's task is unchanged. -/
theorem rejected_task_changes_nothing (db : DB) (now1 now2 : Time) (parentID : String)
    (task : Task) (err : Error) (h : validateTask task = some err) :
    CreateTask db now1 now2 task = (some err, task, db) ∧
    CreateSubtask db now1 now2 parentID task = (some err, task, db) ∧
    UpdateTask db task = (some err, db) := by
  simp only [CreateTask, CreateSubtask, UpdateTask, h, and_self]

/-- Witness of C9 at a task without a title. -/
theorem rejected_task_changes_nothing_witness :
    TaskService.validateTask ⟨"", "", "", "", "", "", none, none, none⟩ =
      some (Errorf "task title is required") ∧
    TaskService.UpdateTask ⟨[], true⟩ ⟨"", "", "", "", "", "", none, none, none⟩ =
      (some (Errorf "task title is required"), ⟨[], true⟩) :=
  ⟨rfl, (rejected_task_changes_nothing ⟨[], true⟩ ⟨1, 2024, 1, 15⟩ ⟨2, 2024, 1, 15⟩ "7"
    ⟨"", "", "", "", "", "", none, none, none⟩ (Errorf "task title is required") rfl).2.2⟩

/-! ## Update and delete of a missing id -/

theorem cascade_nil (n : Nat) (rows : List Row) : cascade n rows [] = [] := by
  induction n with
  | zero => rfl
  | succ n ih => simpa [cascade] using ih

theorem filter_id_eq_nil (rows : List Row) (id : String) (hid : ∀ r ∈ rows, r.id ≠ id) :
    rows.filter (fun r => r.id = id) = [] := by
  rw [List.filter_eq_nil_iff]
  intro r hr
  simpa using hid r hr

theorem map_set_of_missing (rows : List Row) (id : String) (set : Row → Row)
    (hid : ∀ r ∈ rows, r.id ≠ id) :
    rows.map (fun r => if r.id = id then set r else r) = rows := by
  conv_rhs => rw [← List.map_id rows]
  apply List.map_congr_left
  intro r hr
  simp [hid r hr]

open TaskService in
/-- C6: for every store state `rows` and every id that no row has, on a pool
that executes the statement, updateTask of a valid task carrying that id and
deleteTask of that id both fail with the not-found error and leave the store
unchanged. -/
theorem update_delete_missing_id (rows : List Row) (id : String)
    (hid : ∀ r ∈ rows, r.id ≠ id) (task : Task) (hv : validateTask task = none)
    (ht : task.ID = id) :
    UpdateTask ⟨rows, true⟩ task = (some (Errorf "task not found"), ⟨rows, true⟩) ∧
    DeleteTask ⟨rows, true⟩ id = (some (Errorf "task not found"), ⟨rows, true⟩) := by
  constructor
  · simp only [UpdateTask, hv, TaskRepository.UpdateTask, DB.update, ht,
      filter_id_eq_nil rows id hid, map_set_of_missing rows id _ hid]
    simp
  · simp only [DeleteTask, TaskRepository.DeleteTask, DB.delete,
      filter_id_eq_nil rows id hid, List.map_nil, cascade_nil]
    simp

/-- Witness of C6 on a store with one row and the unused id "2". -/
theorem update_delete_missing_id_witness :
    TaskService.validateTask ⟨"2", "a", "", "", "", "", none, none, none⟩ = none ∧
    TaskService.DeleteTask
      ⟨[⟨"1", "t", some "", "low", "active", "2024-01-15", none, none, none⟩], true⟩ "2" =
      (some (Errorf "task not found"),
        ⟨[⟨"1", "t", some "", "low", "active", "2024-01-15", none, none, none⟩], true⟩) :=
  ⟨by rw [validateTask_eq_none]; decide,
   (update_delete_missing_id
      [⟨"1", "t", some "", "low", "active", "2024-01-15", none, none, none⟩] "2"
      (by decide) ⟨"2", "a", "", "", "", "", none, none, none⟩
      (by rw [validateTask_eq_none]; decide) rfl).2⟩

/-! ## The invariant on persisted rows -/

theorem insert_rows (db : DB) (row : Row) :
    (∃ e, db.insert row = .error e) ∨
      db.insert row = .ok ⟨db.rows ++ [row], db.up⟩ := by
  unfold DB.insert
  split_ifs
  · exact Or.inl ⟨_, rfl⟩
  · exact Or.inl ⟨_, rfl⟩
  · exact Or.inl ⟨_, rfl⟩
  · exact Or.inr rfl

theorem repo_create_rows (db : DB) (task : Task) :
    (TaskRepository.CreateTask db task).2.rows = db.rows ∨
    (TaskRepository.CreateTask db task).2.rows = db.rows ++ [TaskRepository.rowOf task none] := by
  unfold TaskRepository.CreateTask
  rcases insert_rows db (TaskRepository.rowOf task none) with ⟨e, h⟩ | h
  · left
    rw [h]
  · right
    rw [h]

theorem repo_createSub_rows (db : DB) (parentID : String) (task : Task) :
    (TaskRepository.CreateSubtask db parentID task).2.rows = db.rows ∨
    (TaskRepository.CreateSubtask db parentID task).2.rows =
      db.rows ++ [TaskRepository.rowOf task (some parentID)] := by
  unfold TaskRepository.CreateSubtask
  rcases insert_rows db (TaskRepository.rowOf task (some parentID)) with ⟨e, h⟩ | h
  · left
    rw [h]
  · right
    rw [h]

theorem valid_filled_priority (task : Task) (hv : TaskService.validateTask task = none) :
    validPriority (if task.Priority = "" then "medium" else task.Priority) := by
  have h := ((validateTask_eq_none task).1 hv).2.1
  unfold validPriority
  split_ifs with e
  · exact Or.inr (Or.inl rfl)
  · by_contra hc
    push_neg at hc
    exact h ⟨e, hc⟩

theorem valid_filled_status (task : Task) (hv : TaskService.validateTask task = none) :
    validStatus (if task.Status = "" then "backlog" else task.Status) := by
  have h := ((validateTask_eq_none task).1 hv).2.2.1
  unfold validStatus
  split_ifs with e
  · exact Or.inl rfl
  · by_contra hc
    push_neg at hc
    exact h ⟨e, hc⟩

/-- The code's default filling yields the task the specification describes. -/
theorem fill_eq_filled (now1 now2 : Time) (task : Task) :
    (let task := { task with ID := now1.idString }
     let task := if task.Priority = "" then { task with Priority := PriorityMedium } else task
     let task := if task.Status = "" then { task with Status := StatusBacklog } else task
     let task := if task.StartDate = "" then { task with StartDate := now2.Format } else task
     if task.SubTasks.isNone then { task with SubTasks := some [] } else task) =
    filled now1 now2 task := by
  obtain ⟨id, ti, de, pr, st, sd, dd, dt, sub⟩ := task
  simp only [filled, PriorityMedium, StatusBacklog]
  by_cases h1 : pr = "" <;> by_cases h2 : st = "" <;> by_cases h3 : sd = "" <;>
    cases sub <;> simp [h1, h2, h3]

theorem service_create_eq (db : DB) (now1 now2 : Time) (task : Task)
    (hv : TaskService.validateTask task = none) :
    TaskService.CreateTask db now1 now2 task =
      ((TaskRepository.CreateTask db (filled now1 now2 task)).1, filled now1 now2 task,
        (TaskRepository.CreateTask db (filled now1 now2 task)).2) := by
  have h := fill_eq_filled now1 now2 task
  simp only at h
  simp only [TaskService.CreateTask, hv, h]

theorem service_createSub_eq (db : DB) (now1 now2 : Time) (parentID : String) (task : Task)
    (hv : TaskService.validateTask task = none) :
    TaskService.CreateSubtask db now1 now2 parentID task =
      ((TaskRepository.CreateSubtask db parentID (filled now1 now2 task)).1,
        filled now1 now2 task,
        (TaskRepository.CreateSubtask db parentID (filled now1 now2 task)).2) := by
  have h := fill_eq_filled now1 now2 task
  simp only at h
  simp only [TaskService.CreateSubtask, hv, h]

theorem rowsValid_append (rows : List Row) (row : Row) (h : RowsValid rows)
    (hp : validPriority row.priority) (hs : validStatus row.status) :
    RowsValid (rows ++ [row]) := by
  intro r hr
  rcases List.mem_append.1 hr with h1 | h1
  · exact h r h1
  · rw [List.mem_singleton.1 h1]
    exact ⟨hp, hs⟩

/-- The rows after the service's createTask or createSubtask: unchanged, or
the old rows and the row of the filled task. -/
theorem service_create_rows (db : DB) (now1 now2 : Time) (parentID : String) (task : Task) :
    ((TaskService.CreateTask db now1 now2 task).2.2.rows = db.rows ∨
      (TaskService.validateTask task = none ∧
        (TaskService.CreateTask db now1 now2 task).2.2.rows =
          db.rows ++ [TaskRepository.rowOf (filled now1 now2 task) none])) ∧
    ((TaskService.CreateSubtask db now1 now2 parentID task).2.2.rows = db.rows ∨
      (TaskService.validateTask task = none ∧
        (TaskService.CreateSubtask db now1 now2 parentID task).2.2.rows =
          db.rows ++ [TaskRepository.rowOf (filled now1 now2 task) (some parentID)])) := by
  cases hv : TaskService.validateTask task with
  | some err =>
    simp [TaskService.CreateTask, TaskService.CreateSubtask, hv]
  | none =>
    rw [service_create_eq db now1 now2 task hv, service_createSub_eq db now1 now2 parentID task hv]
    constructor
    · rcases repo_create_rows db (filled now1 now2 task) with h | h
      · exact Or.inl h
      · exact Or.inr ⟨rfl, h⟩
    · rcases repo_createSub_rows db parentID (filled now1 now2 task) with h | h
      · exact Or.inl h
      · exact Or.inr ⟨rfl, h⟩

/-- The rows after the service's updateTask: each is an old row or carries
the priority and status of the task, which are empty or enumerated. -/
theorem service_update_rows (db : DB) (task : Task) :
    ∀ r ∈ (TaskService.UpdateTask db task).2.rows,
      r ∈ db.rows ∨
      (TaskService.validateTask task = none ∧ r.priority = task.Priority ∧
        r.status = task.Status) := by
  intro r hr
  unfold TaskService.UpdateTask at hr
  cases hv : TaskService.validateTask task with
  | some err =>
    rw [hv] at hr
    exact Or.inl hr
  | none =>
    rw [hv] at hr
    simp only [TaskRepository.UpdateTask, DB.update] at hr
    cases hup : db.up with
    | false =>
      simp only [hup, if_true] at hr
      exact Or.inl hr
    | true =>
      simp only [hup, Bool.true_eq_false, if_false] at hr
      have hr2 : r ∈ db.rows.map
          (fun r => if r.id = task.ID then TaskRepository.rowOf task r.parent_id else r) := by
        split_ifs at hr <;> exact hr
      obtain ⟨r0, h0, e⟩ := List.mem_map.1 hr2
      by_cases hid : r0.id = task.ID
      · rw [if_pos hid] at e
        right
        rw [← e]
        exact ⟨rfl, rfl, rfl⟩
      · rw [if_neg hid] at e
        left
        rw [← e]
        exact h0

open TaskService in
/-- C5, amended: createTask and createSubtask write only rows whose priority
and status are enumerated (an empty one is replaced by its default first), so
they preserve the invariant; updateTask writes the priority and status it is
given, each empty or enumerated, so it preserves the invariant when both are
non-empty. -/
theorem persisted_rows_enumerated (db : DB) (now1 now2 : Time) (parentID : String)
    (task : Task) :
    (∀ r ∈ (CreateTask db now1 now2 task).2.2.rows,
      r ∈ db.rows ∨ (validPriority r.priority ∧ validStatus r.status)) ∧
    (∀ r ∈ (CreateSubtask db now1 now2 parentID task).2.2.rows,
      r ∈ db.rows ∨ (validPriority r.priority ∧ validStatus r.status)) ∧
    (∀ r ∈ (UpdateTask db task).2.rows,
      r ∈ db.rows ∨
      ((r.priority = "" ∨ validPriority r.priority) ∧ (r.status = "" ∨ validStatus r.status) ∧
        r.priority = task.Priority ∧ r.status = task.Status)) ∧
    (RowsValid db.rows →
      RowsValid (CreateTask db now1 now2 task).2.2.rows ∧
      RowsValid (CreateSubtask db now1 now2 parentID task).2.2.rows ∧
      (task.Priority ≠ "" → task.Status ≠ "" → RowsValid (UpdateTask db task).2.rows)) := by
  have hc := service_create_rows db now1 now2 parentID task
  have c1 : ∀ r ∈ (CreateTask db now1 now2 task).2.2.rows,
      r ∈ db.rows ∨ (validPriority r.priority ∧ validStatus r.status) := by
    intro r hr
    rcases hc.1 with h | ⟨hv, h⟩
    · rw [h] at hr
      exact Or.inl hr
    · rw [h] at hr
      rcases List.mem_append.1 hr with h1 | h1
      · exact Or.inl h1
      · rw [List.mem_singleton.1 h1]
        exact Or.inr ⟨valid_filled_priority task hv, valid_filled_status task hv⟩
  have c2 : ∀ r ∈ (CreateSubtask db now1 now2 parentID task).2.2.rows,
      r ∈ db.rows ∨ (validPriority r.priority ∧ validStatus r.status) := by
    intro r hr
    rcases hc.2 with h | ⟨hv, h⟩
    · rw [h] at hr
      exact Or.inl hr
    · rw [h] at hr
      rcases List.mem_append.1 hr with h1 | h1
      · exact Or.inl h1
      · rw [List.mem_singleton.1 h1]
        exact Or.inr ⟨valid_filled_priority task hv, valid_filled_status task hv⟩
  have c3 : ∀ r ∈ (UpdateTask db task).2.rows,
      r ∈ db.rows ∨
      ((r.priority = "" ∨ validPriority r.priority) ∧ (r.status = "" ∨ validStatus r.status) ∧
        r.priority = task.Priority ∧ r.status = task.Status) := by
    intro r hr
    rcases service_update_rows db task r hr with h | ⟨hv, hp, hs⟩
    · exact Or.inl h
    · right
      have v := (validateTask_eq_none task).1 hv
      refine ⟨?_, ?_, hp, hs⟩
      · rw [hp]
        unfold validPriority
        by_contra hcon
        push_neg at hcon
        exact v.2.1 ⟨hcon.1, hcon.2⟩
      · rw [hs]
        unfold validStatus
        by_contra hcon
        push_neg at hcon
        exact v.2.2.1 ⟨hcon.1, hcon.2⟩
  refine ⟨c1, c2, c3, ?_⟩
  intro hinv
  refine ⟨?_, ?_, ?_⟩
  · intro r hr
    rcases c1 r hr with h | h
    · exact hinv r h
    · exact h
  · intro r hr
    rcases c2 r hr with h | h
    · exact hinv r h
    · exact h
  · intro np ns r hr
    rcases c3 r hr with h | ⟨hp, hs, ep, es⟩
    · exact hinv r h
    · constructor
      · rcases hp with h | h
        · exact absurd (ep ▸ h) np
        · exact h
      · rcases hs with h | h
        · exact absurd (es ▸ h) ns
        · exact h

open TaskService in
/-- C5, as stated, fails for updateTask: on a store whose only row is
enumerated, updating that row with a task that has only a title succeeds and
persists an empty priority and an empty status. -/
theorem update_persists_empty_priority :
    RowsValid [⟨"1", "t", some "", "low", "active", "2024-01-15", none, none, none⟩] ∧
    UpdateTask ⟨[⟨"1", "t", some "", "low", "active", "2024-01-15", none, none, none⟩], true⟩
      ⟨"1", "x", "", "", "", "", none, none, none⟩ =
      (none, ⟨[⟨"1", "x", some "", "", "", "", none, none, none⟩], true⟩) ∧
    ¬ RowsValid [⟨"1", "x", some "", "", "", "", none, none, none⟩] := by
  refine ⟨?_, by decide, ?_⟩
  · intro r hr
    rw [List.mem_singleton.1 hr]
    exact ⟨Or.inl rfl, Or.inr (Or.inl rfl)⟩
  · intro h
    have := (h _ (List.mem_singleton.2 rfl)).1
    revert this
    unfold validPriority
    decide

/-- Witness of C5 on a store with one enumerated row. -/
theorem persisted_rows_enumerated_witness :
    RowsValid [⟨"1", "t", some "", "low", "active", "2024-01-15", none, none, none⟩] ∧
    RowsValid (TaskService.CreateTask
      ⟨[⟨"1", "t", some "", "low", "active", "2024-01-15", none, none, none⟩], true⟩
      ⟨42, 2024, 1, 15⟩ ⟨43, 2024, 1, 15⟩
      ⟨"", "Buy milk", "", "", "", "", none, none, none⟩).2.2.rows :=
  have h : RowsValid [⟨"1", "t", some "", "low", "active", "2024-01-15", none, none, none⟩] := by
    intro r hr
    rw [List.mem_singleton.1 hr]
    exact ⟨Or.inl rfl, Or.inr (Or.inl rfl)⟩
  ⟨h, ((persisted_rows_enumerated
    ⟨[⟨"1", "t", some "", "low", "active", "2024-01-15", none, none, none⟩], true⟩
    ⟨42, 2024, 1, 15⟩ ⟨43, 2024, 1, 15⟩ "1"
    ⟨"", "Buy milk", "", "", "", "", none, none, none⟩).2.2.2 h).1⟩

/-! ## Create, then fetch -/

theorem insert_ok {db db1 : DB} {row : Row} (h : db.insert row = .ok db1) :
    db.up = true ∧ (∀ r ∈ db.rows, r.id ≠ row.id) ∧ db1 = ⟨db.rows ++ [row], db.up⟩ := by
  unfold DB.insert at h
  split_ifs at h with h1 h2 h3
  refine ⟨by simpa using h1, ?_, ?_⟩
  · intro r hr e
    apply h2
    simp only [List.any_eq_true, decide_eq_true_eq]
    exact ⟨r, hr, e⟩
  · injection h with h
    exact h.symm

theorem find_new_row (rows : List Row) (row : Row) (h : ∀ r ∈ rows, r.id ≠ row.id) :
    (rows ++ [row]).find? (fun r => r.id = row.id) = some row := by
  have : rows.find? (fun r => r.id = row.id) = none := by
    rw [List.find?_eq_none]
    intro r hr
    simpa using h r hr
  simp [List.find?_append, this]

theorem getSubtasks_no_children (conns : Nat) (db : DB) (p : String) (hup : db.up = true)
    (h : ∀ r ∈ db.rows, r.parent_id ≠ some p) :
    TaskRepository.getSubtasksForTask (conns + 1) db p = some none := by
  have : db.rows.filter (fun r => r.parent_id = some p) = [] := by
    rw [List.filter_eq_nil_iff]
    intro r hr
    simpa using h r hr
  simp [TaskRepository.getSubtasksForTask, DB.queryChildren, hup, this, scanLoop]

/-- C4, amended: when createTask succeeds on a store that satisfies its
foreign key, fetching by the assigned id (on a pool of at least one
connection) returns a task with the same id,
title, description, priority, status, startDate, dueDate and dueTime as the
task createTask returned; its subTasks are the children found in the store,
of which a fresh id has none. -/
theorem create_then_fetch (db db1 : DB) (now1 now2 : Time) (task created : Task)
    (href : RefsValid db.rows)
    (hc : TaskService.CreateTask db now1 now2 task = (none, created, db1)) (conns : Nat) :
    ∃ got, TaskService.GetTask (conns + 1) db1 created.ID = some (some got, none) ∧
      got.ID = created.ID ∧ got.Title = created.Title ∧
      got.Description = created.Description ∧ got.Priority = created.Priority ∧
      got.Status = created.Status ∧ got.StartDate = created.StartDate ∧
      got.DueDate = created.DueDate ∧ got.DueTime = created.DueTime ∧
      got.SubTasks.getD [] = [] := by
  cases hv : TaskService.validateTask task with
  | some err =>
    simp [TaskService.CreateTask, hv] at hc
  | none =>
    rw [service_create_eq db now1 now2 task hv] at hc
    simp only [Prod.mk.injEq] at hc
    obtain ⟨he, hcr, hdb⟩ := hc
    subst hcr
    unfold TaskRepository.CreateTask at he hdb
    cases hi : db.insert (TaskRepository.rowOf (filled now1 now2 task) none) with
    | error e => simp [hi] at he
    | ok d =>
      rw [hi] at hdb
      simp only at hdb
      subst hdb
      obtain ⟨hup, hfresh, hd⟩ := insert_ok hi
      subst hd
      have hq : (DB.mk (db.rows ++ [TaskRepository.rowOf (filled now1 now2 task) none])
          db.up).queryRow (filled now1 now2 task).ID =
          .ok (TaskRepository.rowOf (filled now1 now2 task) none) := by
        simp only [DB.queryRow, hup, if_true]
        have := find_new_row db.rows (TaskRepository.rowOf (filled now1 now2 task) none) hfresh
        simp only [TaskRepository.rowOf] at this ⊢
        rw [this]
      have hch : TaskRepository.getSubtasksForTask (conns + 1)
          (DB.mk (db.rows ++ [TaskRepository.rowOf (filled now1 now2 task) none]) db.up)
          (filled now1 now2 task).ID = some none := by
        refine getSubtasks_no_children conns ⟨_, db.up⟩ _ hup ?_
        intro r hr hp
        rcases List.mem_append.1 hr with h1 | h1
        · obtain ⟨q, hq1, hq2⟩ := href r h1 _ hp
          exact hfresh q hq1 hq2
        · rw [List.mem_singleton.1 h1] at hp
          simp [TaskRepository.rowOf] at hp
      refine ⟨{ filled now1 now2 task with SubTasks := none }, ?_, rfl, rfl, rfl, rfl, rfl, rfl,
        rfl, rfl, rfl⟩
      simp only [TaskService.GetTask, TaskRepository.GetTask, hq]
      simp only [Except.bind, scan, TaskRepository.rowOf]
      simp only [TaskRepository.rowOf] at hch
      rw [hch]

open TaskService in
/-- C4, as stated, fails on subTasks: a task created with one nested subtask
is returned to the caller with that subtask, the insert succeeds, and the
fetch by the assigned id returns the same scalar fields but no subTasks. -/
theorem fetch_drops_subTasks :
    CreateTask ⟨[], true⟩ ⟨42, 2024, 1, 15⟩ ⟨43, 2024, 1, 15⟩
      ⟨"", "a", "", "high", "active", "2024-01-15", none, none,
        some [⟨"", "b", "", "", "", "", none, none, none⟩]⟩ =
      (none,
       ⟨"42", "a", "", "high", "active", "2024-01-15", none, none,
        some [⟨"", "b", "", "", "", "", none, none, none⟩]⟩,
       ⟨[⟨"42", "a", some "", "high", "active", "2024-01-15", none, none, none⟩], true⟩) ∧
    GetTask 1 ⟨[⟨"42", "a", some "", "high", "active", "2024-01-15", none, none, none⟩], true⟩
      "42" =
      some (some ⟨"42", "a", "", "high", "active", "2024-01-15", none, none, none⟩, none) ∧
    (⟨"42", "a", "", "high", "active", "2024-01-15", none, none, none⟩ : Task).SubTasks ≠
      (⟨"42", "a", "", "high", "active", "2024-01-15", none, none,
        some [⟨"", "b", "", "", "", "", none, none, none⟩]⟩ : Task).SubTasks :=
  ⟨rfl, rfl, fun h => Option.noConfusion h⟩

/-- Witness of C4: a task with priority high, status active and start date
2024-01-15 created on the empty store. -/
theorem create_then_fetch_witness :
    RefsValid [] ∧
    ∃ got, TaskService.GetTask 1
        ⟨[⟨"42", "a", some "", "high", "active", "2024-01-15", none, none, none⟩], true⟩
        (⟨"42", "a", "", "high", "active", "2024-01-15", none, none, some []⟩ : Task).ID =
          some (some got, none) ∧
      got.Priority = "high" ∧ got.Status = "active" ∧ got.StartDate = "2024-01-15" :=
  have href : RefsValid [] := fun r hr => absurd hr (List.not_mem_nil r)
  ⟨href, by
    obtain ⟨got, h, -, -, -, hp, hs, hd, -⟩ := create_then_fetch ⟨[], true⟩
      ⟨[⟨"42", "a", some "", "high", "active", "2024-01-15", none, none, none⟩], true⟩
      ⟨42, 2024, 1, 15⟩ ⟨43, 2024, 1, 15⟩
      ⟨"", "a", "", "high", "active", "2024-01-15", none, none, none⟩
      ⟨"42", "a", "", "high", "active", "2024-01-15", none, none, some []⟩ href rfl 0
    exact ⟨got, h, hp, hs, hd⟩⟩

/-! ## The recursive fetch and the pool -/

theorem acyclic_of_rank (rows : List Row) (rank : String → Nat)
    (h : ∀ r ∈ rows, ∀ p, r.parent_id = some p → rank p < rank r.id) : Acyclic rows := by
  have key : ∀ p r, Descends rows p r → rank p < rank r.id := by
    intro p r hd
    induction hd with
    | child hr hp => exact h _ hr _ hp
    | step _ hr hp ih => exact lt_trans ih (h _ hr _ hp)
  intro r hd
  exact lt_irrefl _ (key _ _ hd)

open TaskRepository in
/-- C7 at its failing inputs.  On the chain of tasks "1", "2", "3", "4", "5",
each the subtask of the one before (unique ids, no cycle), with four free
connections the fetch for "1" never returns, and neither does the handler.
On a store where the second child of "p" has a NULL description, the fetch
for "p" returns the first child only: the loop ends at the row that fails to
scan and the third child is lost. -/
theorem getSubtasks_fails_on_deep_chain_and_null :
    Acyclic [⟨"1", "a", some "", "medium", "backlog", "2024-01-15", none, none, none⟩,
      ⟨"2", "b", some "", "medium", "backlog", "2024-01-15", none, none, some "1"⟩,
      ⟨"3", "c", some "", "medium", "backlog", "2024-01-15", none, none, some "2"⟩,
      ⟨"4", "d", some "", "medium", "backlog", "2024-01-15", none, none, some "3"⟩,
      ⟨"5", "e", some "", "medium", "backlog", "2024-01-15", none, none, some "4"⟩] ∧
    KeysUnique [⟨"1", "a", some "", "medium", "backlog", "2024-01-15", none, none, none⟩,
      ⟨"2", "b", some "", "medium", "backlog", "2024-01-15", none, none, some "1"⟩,
      ⟨"3", "c", some "", "medium", "backlog", "2024-01-15", none, none, some "2"⟩,
      ⟨"4", "d", some "", "medium", "backlog", "2024-01-15", none, none, some "3"⟩,
      ⟨"5", "e", some "", "medium", "backlog", "2024-01-15", none, none, some "4"⟩] ∧
    getSubtasksForTask 4
      ⟨[⟨"1", "a", some "", "medium", "backlog", "2024-01-15", none, none, none⟩,
        ⟨"2", "b", some "", "medium", "backlog", "2024-01-15", none, none, some "1"⟩,
        ⟨"3", "c", some "", "medium", "backlog", "2024-01-15", none, none, some "2"⟩,
        ⟨"4", "d", some "", "medium", "backlog", "2024-01-15", none, none, some "3"⟩,
        ⟨"5", "e", some "", "medium", "backlog", "2024-01-15", none, none, some "4"⟩],
        true⟩ "1" = none ∧
    TaskHandler.GetSubtasks 4
      ⟨[⟨"1", "a", some "", "medium", "backlog", "2024-01-15", none, none, none⟩,
        ⟨"2", "b", some "", "medium", "backlog", "2024-01-15", none, none, some "1"⟩,
        ⟨"3", "c", some "", "medium", "backlog", "2024-01-15", none, none, some "2"⟩,
        ⟨"4", "d", some "", "medium", "backlog", "2024-01-15", none, none, some "3"⟩,
        ⟨"5", "e", some "", "medium", "backlog", "2024-01-15", none, none, some "4"⟩],
        true⟩ "1" = none ∧
    getSubtasksForTask 4
      ⟨[⟨"p", "t", some "", "low", "active", "2024-01-15", none, none, none⟩,
        ⟨"b", "u", some "", "low", "active", "2024-01-15", none, none, some "p"⟩,
        ⟨"c", "v", none, "low", "active", "2024-01-15", none, none, some "p"⟩,
        ⟨"d", "w", some "", "low", "active", "2024-01-15", none, none, some "p"⟩], true⟩ "p" =
      some (some [⟨"b", "u", "", "low", "active", "2024-01-15", none, none, none⟩]) := by
  refine ⟨?_, ?_, rfl, rfl, rfl⟩
  · apply acyclic_of_rank _
      (fun s => if s = "1" then 0 else if s = "2" then 1 else if s = "3" then 2
        else if s = "4" then 3 else 4)
    intro r hr q hq
    simp only [List.mem_cons, List.mem_singleton, List.not_mem_nil, or_false] at hr
    rcases hr with e | e | e | e | e
    · rw [e] at hq
      cases hq
    all_goals
      rw [e] at hq ⊢
      injection hq with hq
      rw [← hq]
      decide
  · unfold KeysUnique
    decide

/-! ## Nil slices in fetched tasks -/

/-- C8 at its failing inputs: on the empty table listTasks returns the nil
slice; for a stored task without children getTask returns nil subTasks and
listSubtasks the nil slice; only the failing query yields the empty non-nil
slice. -/
theorem fetch_returns_nil_slices :
    TaskService.GetTasks 1 ⟨[], true⟩ = some none ∧
    TaskService.GetTask 1
      ⟨[⟨"1", "a", some "", "medium", "backlog", "2024-01-15", none, none, none⟩], true⟩ "1" =
      some (some ⟨"1", "a", "", "medium", "backlog", "2024-01-15", none, none, none⟩, none) ∧
    Task.noNil ⟨"1", "a", "", "medium", "backlog", "2024-01-15", none, none, none⟩ = false ∧
    TaskService.GetSubtasks 1
      ⟨[⟨"1", "a", some "", "medium", "backlog", "2024-01-15", none, none, none⟩], true⟩ "1" =
      some (none, none) ∧
    TaskService.GetSubtasks 1
      ⟨[⟨"1", "a", some "", "medium", "backlog", "2024-01-15", none, none, none⟩], false⟩ "1" =
      some (some [], none) :=
  ⟨rfl, rfl, rfl, rfl, rfl⟩

end Kanban
